import Mathlib

/-!
Shallow embedding of `src/backend/server.py` (NFTCryptoMax/Server.py), a
FastAPI CRUD backend for sales-tender records stored in a MongoDB
collection.  The document store is modelled as a `List StoredTender`
(Mongo natural order = insertion order for a single collection without
indexes); each HTTP handler becomes a pure function threading the store,
with the server clock (`datetime.utcnow()`) and the generated UUID
(`uuid.uuid4()`) passed in as parameters, since they are the only
effects besides the store.  Calendar dates and date-times are modelled
at second resolution (the spec's wire format examples carry no
sub-second part and none of the handlers computes with time values).
-/

/-- `datetime.date`: Python guarantees `1 <= year <= 9999`,
`1 <= month <= 12`, `1 <= day <= 31` for every constructible value;
the bounds live in `Date.valid` below rather than in the type. -/
structure Date where
  year : Nat
  month : Nat
  day : Nat
deriving DecidableEq, Repr

/-- `datetime.datetime` at second resolution. -/
structure DateTime where
  year : Nat
  month : Nat
  day : Nat
  hour : Nat
  minute : Nat
  second : Nat
deriving DecidableEq, Repr

/-- The range of field values representable by a Python `datetime.date`
(day-in-month is checked only up to 31; the looser bound only enlarges
the set of payloads the theorems quantify over). -/
def Date.valid (d : Date) : Prop :=
  1 ≤ d.year ∧ d.year ≤ 9999 ∧ 1 ≤ d.month ∧ d.month ≤ 12 ∧ 1 ≤ d.day ∧ d.day ≤ 31

instance (d : Date) : Decidable d.valid := by
  unfold Date.valid; infer_instance

/-- The range of field values representable by a Python `datetime.datetime`. -/
def DateTime.valid (t : DateTime) : Prop :=
  1 ≤ t.year ∧ t.year ≤ 9999 ∧ 1 ≤ t.month ∧ t.month ≤ 12 ∧ 1 ≤ t.day ∧ t.day ≤ 31 ∧
    t.hour ≤ 23 ∧ t.minute ≤ 59 ∧ t.second ≤ 59

instance (t : DateTime) : Decidable t.valid := by
  unfold DateTime.valid; infer_instance

/-- `datetime.date()` on a `datetime`: drop the time-of-day part. -/
def DateTime.date (t : DateTime) : Date :=
  ⟨t.year, t.month, t.day⟩

/-- ASCII digit character for a value `< 10`. -/
def digitChar (n : Nat) : Char :=
  Char.ofNat (48 + n)

/-- Zero-padded two-digit rendering (exactly what `%02d` produces for
values below 100, which covers every month/day/hour/minute/second of a
valid date). -/
def pad2 (n : Nat) : List Char :=
  [digitChar (n / 10 % 10), digitChar (n % 10)]

/-- Zero-padded four-digit rendering (`%04d` for values below 10000,
which covers every year of a valid date). -/
def pad4 (n : Nat) : List Char :=
  [digitChar (n / 1000 % 10), digitChar (n / 100 % 10),
   digitChar (n / 10 % 10), digitChar (n % 10)]

/-- `date.isoformat()`: `YYYY-MM-DD`. -/
def Date.isoformat (d : Date) : String :=
  ⟨pad4 d.year ++ '-' :: pad2 d.month ++ '-' :: pad2 d.day⟩

/-- `datetime.isoformat()` for a microsecond-free value:
`YYYY-MM-DDTHH:MM:SS`. -/
def DateTime.isoformat (t : DateTime) : String :=
  ⟨pad4 t.year ++ '-' :: pad2 t.month ++ '-' :: pad2 t.day ++
    'T' :: pad2 t.hour ++ ':' :: pad2 t.minute ++ ':' :: pad2 t.second⟩

/-- Numeric value of an ASCII digit character. -/
def charDigit? (c : Char) : Option Nat :=
  if 48 ≤ c.toNat ∧ c.toNat ≤ 57 then some (c.toNat - 48) else none

/-- Two fixed-width digit characters to a number. -/
def parse2 (a b : Char) : Option Nat := do
  let x ← charDigit? a
  let y ← charDigit? b
  pure (10 * x + y)

/-- Four fixed-width digit characters to a number. -/
def parse4 (a b c d : Char) : Option Nat := do
  let x ← charDigit? a
  let y ← charDigit? b
  let z ← charDigit? c
  let w ← charDigit? d
  pure (1000 * x + 100 * y + 10 * z + w)

/-- `datetime.fromisoformat` restricted to the two shapes this server
ever feeds it: `YYYY-MM-DD` (time defaults to midnight) and
`YYYY-MM-DD*HH:MM:SS` with an arbitrary one-character separator, as in
CPython.  Out-of-range components are rejected the way the
`datetime` constructor would reject them. -/
def fromisoformat (s : String) : Option DateTime :=
  match s.data with
  | [y1, y2, y3, y4, c1, m1, m2, c2, d1, d2] =>
    if c1 = '-' ∧ c2 = '-' then do
      let y ← parse4 y1 y2 y3 y4
      let m ← parse2 m1 m2
      let d ← parse2 d1 d2
      if 1 ≤ y ∧ 1 ≤ m ∧ m ≤ 12 ∧ 1 ≤ d ∧ d ≤ 31 then
        some ⟨y, m, d, 0, 0, 0⟩
      else none
    else none
  | [y1, y2, y3, y4, c1, m1, m2, c2, d1, d2, _sep, h1, h2, c4, n1, n2, c5, e1, e2] =>
    if c1 = '-' ∧ c2 = '-' ∧ c4 = ':' ∧ c5 = ':' then do
      let y ← parse4 y1 y2 y3 y4
      let m ← parse2 m1 m2
      let d ← parse2 d1 d2
      let h ← parse2 h1 h2
      let n ← parse2 n1 n2
      let e ← parse2 e1 e2
      if 1 ≤ y ∧ 1 ≤ m ∧ m ≤ 12 ∧ 1 ≤ d ∧ d ≤ 31 ∧ h ≤ 23 ∧ n ≤ 59 ∧ e ≤ 59 then
        some ⟨y, m, d, h, n, e⟩
      else none
    else none
  | _ => none

/-- The read-side conversion the handlers apply to the two stored
calendar-date fields: `datetime.fromisoformat(s).date()`. -/
def date_fromisoformat (s : String) : Option Date :=
  (fromisoformat s).map DateTime.date

/-! ## Enumerations (`TenderStatus`, `PriorityLevel`)

Both Python enums subclass `str`: a stored member is BSON-encoded as its
literal string value, so Mongo equality filters compare that string. -/

inductive TenderStatus where
  | OFFER
  | ROUND_1
  | ROUND_2
  | ROUND_3
  | ROUND_4
  | BAFO
  | CONTRACT_SIGNED
  | WON
  | LOST
deriving DecidableEq, Repr

/-- The literal string value of each `TenderStatus` member. -/
def TenderStatus.toStr : TenderStatus → String
  | .OFFER => "Offer"
  | .ROUND_1 => "Round 1"
  | .ROUND_2 => "Round 2"
  | .ROUND_3 => "Round 3"
  | .ROUND_4 => "Round 4"
  | .BAFO => "BAFO"
  | .CONTRACT_SIGNED => "Contract Signed"
  | .WON => "Won"
  | .LOST => "Lost"

/-- Pydantic coercion of a wire string into `TenderStatus`; anything
outside the nine literal values is a validation failure. -/
def TenderStatus.fromStr? (s : String) : Option TenderStatus :=
  if s = "Offer" then some .OFFER
  else if s = "Round 1" then some .ROUND_1
  else if s = "Round 2" then some .ROUND_2
  else if s = "Round 3" then some .ROUND_3
  else if s = "Round 4" then some .ROUND_4
  else if s = "BAFO" then some .BAFO
  else if s = "Contract Signed" then some .CONTRACT_SIGNED
  else if s = "Won" then some .WON
  else if s = "Lost" then some .LOST
  else none

inductive PriorityLevel where
  | HIGH
  | MEDIUM
  | LOW
deriving DecidableEq, Repr

/-- The literal string value of each `PriorityLevel` member. -/
def PriorityLevel.toStr : PriorityLevel → String
  | .HIGH => "High"
  | .MEDIUM => "Medium"
  | .LOW => "Low"

/-- Pydantic coercion of a wire string into `PriorityLevel`. -/
def PriorityLevel.fromStr? (s : String) : Option PriorityLevel :=
  if s = "High" then some .HIGH
  else if s = "Medium" then some .MEDIUM
  else if s = "Low" then some .LOW
  else none

/-- `deal_value: float`.  The server never computes with it — it is
validated, stored and returned verbatim — so it is modelled as an
opaque scalar with decidable equality rather than an IEEE value. -/
abbrev FloatVal := Int

/-! ## Pydantic models -/

/-- The `Tender` response model: the full typed record. -/
structure Tender where
  id : String
  item : String
  customer : String
  tender_name : String
  status : TenderStatus
  start_date : Date
  expiry_date : Date
  due_date : DateTime
  deal_value : FloatVal
  priority : PriorityLevel
  assigned_sales_rep : String
  created_at : DateTime
  updated_at : DateTime
deriving DecidableEq, Repr

/-- `TenderCreate` after pydantic validation: every field present and
typed (a missing `status` has already been defaulted to `OFFER`). -/
structure TenderCreate where
  item : String
  customer : String
  tender_name : String
  status : TenderStatus
  start_date : Date
  expiry_date : Date
  due_date : DateTime
  deal_value : FloatVal
  priority : PriorityLevel
  assigned_sales_rep : String
deriving DecidableEq, Repr

/-- `TenderUpdate` after pydantic validation: all fields optional,
`none` standing for both an absent field and an explicit JSON null
(pydantic maps both to Python `None`). -/
structure TenderUpdate where
  item : Option String := none
  customer : Option String := none
  tender_name : Option String := none
  status : Option TenderStatus := none
  start_date : Option Date := none
  expiry_date : Option Date := none
  due_date : Option DateTime := none
  deal_value : Option FloatVal := none
  priority : Option PriorityLevel := none
  assigned_sales_rep : Option String := none
deriving DecidableEq, Repr

/-! ## Wire-level payloads, before validation

`Option` marks JSON presence; in the update payload the inner `Option`
distinguishes an explicit null (`some none`) from a real value. -/

/-- A raw JSON body for `POST /api/tenders`: enum and date fields are
still strings. -/
structure RawTenderCreate where
  item : Option String := none
  customer : Option String := none
  tender_name : Option String := none
  status : Option String := none
  start_date : Option String := none
  expiry_date : Option String := none
  due_date : Option String := none
  deal_value : Option FloatVal := none
  priority : Option String := none
  assigned_sales_rep : Option String := none
deriving DecidableEq, Repr

/-- A raw JSON body for `PUT /api/tenders/{id}`: outer `Option` is
field presence, inner `Option` is value-vs-null. -/
structure RawTenderUpdate where
  item : Option (Option String) := none
  customer : Option (Option String) := none
  tender_name : Option (Option String) := none
  status : Option (Option String) := none
  start_date : Option (Option String) := none
  expiry_date : Option (Option String) := none
  due_date : Option (Option String) := none
  deal_value : Option (Option FloatVal) := none
  priority : Option (Option String) := none
  assigned_sales_rep : Option (Option String) := none
deriving DecidableEq, Repr

/-- Pydantic validation of `TenderCreate`: every field but `status`
required, `status` defaulting to `"Offer"`, strings coerced to
enums/dates, failure on any missing or unparseable field. -/
def parseTenderCreate (r : RawTenderCreate) : Option TenderCreate := do
  let item ← r.item
  let customer ← r.customer
  let tender_name ← r.tender_name
  let status ← match r.status with
    | none => some TenderStatus.OFFER
    | some s => TenderStatus.fromStr? s
  let start_date ← r.start_date.bind date_fromisoformat
  let expiry_date ← r.expiry_date.bind date_fromisoformat
  let due_date ← r.due_date.bind fromisoformat
  let deal_value ← r.deal_value
  let priority ← match r.priority with
    | none => none
    | some p => PriorityLevel.fromStr? p
  let assigned_sales_rep ← r.assigned_sales_rep
  pure ⟨item, customer, tender_name, status, start_date, expiry_date, due_date,
    deal_value, priority, assigned_sales_rep⟩

/-- Validation of one optional update field: absent and explicit null
both become `none`; a present value must parse. -/
def parseOptField (parse : α → Option β) : Option (Option α) → Option (Option β)
  | none => some none
  | some none => some none
  | some (some a) => (parse a).map some

/-- Pydantic validation of `TenderUpdate`: all fields optional, present
values coerced under the same constraints as create. -/
def parseTenderUpdate (r : RawTenderUpdate) : Option TenderUpdate := do
  let item ← parseOptField some r.item
  let customer ← parseOptField some r.customer
  let tender_name ← parseOptField some r.tender_name
  let status ← parseOptField TenderStatus.fromStr? r.status
  let start_date ← parseOptField date_fromisoformat r.start_date
  let expiry_date ← parseOptField date_fromisoformat r.expiry_date
  let due_date ← parseOptField fromisoformat r.due_date
  let deal_value ← parseOptField some r.deal_value
  let priority ← parseOptField PriorityLevel.fromStr? r.priority
  let assigned_sales_rep ← parseOptField some r.assigned_sales_rep
  pure ⟨item, customer, tender_name, status, start_date, expiry_date, due_date,
    deal_value, priority, assigned_sales_rep⟩

/-! ## Stored documents and Mongo collection operations -/

/-- A document of the `db.tenders` collection, exactly as
`create_tender`/`update_tender` write it: the three business date
fields as ISO strings, `created_at`/`updated_at` as native datetimes
(they are never converted to strings), enums as their string-subclass
members. -/
structure StoredTender where
  id : String
  item : String
  customer : String
  tender_name : String
  status : TenderStatus
  start_date : String
  expiry_date : String
  due_date : String
  deal_value : FloatVal
  priority : PriorityLevel
  assigned_sales_rep : String
  created_at : DateTime
  updated_at : DateTime
deriving DecidableEq, Repr

/-- The `$set` document built by `update_tender`: one optional slot per
updatable field plus `updated_at`; there is no `id` slot because
`TenderUpdate` has no `id` field. -/
structure UpdateDoc where
  item : Option String := none
  customer : Option String := none
  tender_name : Option String := none
  status : Option TenderStatus := none
  start_date : Option String := none
  expiry_date : Option String := none
  due_date : Option String := none
  deal_value : Option FloatVal := none
  priority : Option PriorityLevel := none
  assigned_sales_rep : Option String := none
  updated_at : Option DateTime := none
deriving DecidableEq, Repr

/-- Mongo `$set` on one document: present slots overwrite, absent slots
leave the stored value. -/
def applySet (d : StoredTender) (u : UpdateDoc) : StoredTender where
  id := d.id
  item := u.item.getD d.item
  customer := u.customer.getD d.customer
  tender_name := u.tender_name.getD d.tender_name
  status := u.status.getD d.status
  start_date := u.start_date.getD d.start_date
  expiry_date := u.expiry_date.getD d.expiry_date
  due_date := u.due_date.getD d.due_date
  deal_value := u.deal_value.getD d.deal_value
  priority := u.priority.getD d.priority
  assigned_sales_rep := u.assigned_sales_rep.getD d.assigned_sales_rep
  created_at := d.created_at
  updated_at := u.updated_at.getD d.updated_at

/-- `db.tenders.find_one({"id": tid})`: first document in natural order
whose `id` field equals `tid`. -/
def find_one (store : List StoredTender) (tid : String) : Option StoredTender :=
  store.find? (fun d => d.id == tid)

/-- `db.tenders.insert_one(doc)`: append in natural order. -/
def insert_one (store : List StoredTender) (d : StoredTender) : List StoredTender :=
  store ++ [d]

/-- `db.tenders.update_one({"id": tid}, {"$set": u})`: apply `$set` to
the first matching document; returns the new collection and
`matched_count`. -/
def update_one : List StoredTender → String → UpdateDoc → List StoredTender × Nat
  | [], _, _ => ([], 0)
  | d :: ds, tid, u =>
    if d.id = tid then (applySet d u :: ds, 1)
    else
      let r := update_one ds tid u
      (d :: r.1, r.2)

/-- `db.tenders.delete_one({"id": tid})`: remove the first matching
document; returns the new collection and `deleted_count`. -/
def delete_one : List StoredTender → String → List StoredTender × Nat
  | [], _ => ([], 0)
  | d :: ds, tid =>
    if d.id = tid then (ds, 1)
    else
      let r := delete_one ds tid
      (d :: r.1, r.2)

/-- The equality query `get_tenders` builds (only the keys it may add). -/
structure TenderQuery where
  status : Option String := none
  priority : Option String := none
  customer : Option String := none
deriving DecidableEq, Repr

/-- Mongo equality matching of a query against a stored document; the
stored str-enum members compare by their literal string value. -/
def matchesQuery (q : TenderQuery) (d : StoredTender) : Bool :=
  (match q.status with
    | none => true
    | some s => s == d.status.toStr) &&
  (match q.priority with
    | none => true
    | some p => p == d.priority.toStr) &&
  (match q.customer with
    | none => true
    | some c => c == d.customer)

/-- `db.tenders.find(query).to_list(1000)`: all matches in natural
order, capped at 1000. -/
def find_to_list (store : List StoredTender) (q : TenderQuery) : List StoredTender :=
  (store.filter (matchesQuery q)).take 1000

/-! ## Error model and response conversion -/

/-- The error outcomes a handler can signal. `validation` is FastAPI
rejecting the body before the handler body runs (HTTP 422); `notFound`
is the explicit `HTTPException(404)`; `internal` is an unhandled Python
exception (HTTP 500), e.g. `fromisoformat` raising on a malformed
stored string. -/
inductive ApiError where
  | validation
  | notFound
  | internal
deriving DecidableEq, Repr

/-- The HTTP status code each error surfaces as. -/
def ApiError.statusCode : ApiError → Nat
  | .validation => 422
  | .notFound => 404
  | .internal => 500

/-- The read-side conversion every fetching handler performs on a
document before `Tender(**tender)`: parse the three stored date strings
back to typed values (the `isinstance(..., str)` guards are always true
in this model because those fields are stored as strings).  A parse
failure is the `ValueError` the Python would raise. -/
def docToTender (d : StoredTender) : Option Tender := do
  let sd ← date_fromisoformat d.start_date
  let ed ← date_fromisoformat d.expiry_date
  let dd ← fromisoformat d.due_date
  pure ⟨d.id, d.item, d.customer, d.tender_name, d.status, sd, ed, dd,
    d.deal_value, d.priority, d.assigned_sales_rep, d.created_at, d.updated_at⟩

/-! ## Handlers

Each handler takes the pre-state of the collection and returns its
result together with the post-state.  Every `datetime.utcnow()` reading
a request makes is passed in as its own parameter, in evaluation order,
and `newId` stands for the `uuid.uuid4()` drawn in `create_tender`. -/

/-- `create_tender` (handler body, after validation): stringify the
payload dates, rebuild a `Tender` through pydantic (which re-parses
those strings — `none` models the `ValidationError` this would raise if
they failed to parse), stringify again and insert.  `Tender(**...)`
evaluates the `created_at` and `updated_at` default factories
separately, so the handler takes the two `datetime.utcnow()` readings
`now1` (for `created_at`) and `now2` (for `updated_at`) in that order;
nothing forces them to coincide. -/
def create_tender (tender_data : TenderCreate) (newId : String) (now1 now2 : DateTime)
    (store : List StoredTender) : Option (Tender × List StoredTender) := do
  let sd ← date_fromisoformat tender_data.start_date.isoformat
  let ed ← date_fromisoformat tender_data.expiry_date.isoformat
  let dd ← fromisoformat tender_data.due_date.isoformat
  let tender_obj : Tender := ⟨newId, tender_data.item, tender_data.customer,
    tender_data.tender_name, tender_data.status, sd, ed, dd, tender_data.deal_value,
    tender_data.priority, tender_data.assigned_sales_rep, now1, now2⟩
  let doc : StoredTender := ⟨tender_obj.id, tender_obj.item, tender_obj.customer,
    tender_obj.tender_name, tender_obj.status, tender_obj.start_date.isoformat,
    tender_obj.expiry_date.isoformat, tender_obj.due_date.isoformat,
    tender_obj.deal_value, tender_obj.priority, tender_obj.assigned_sales_rep,
    tender_obj.created_at, tender_obj.updated_at⟩
  pure (tender_obj, insert_one store doc)

/-- `POST /api/tenders` at the wire level: pydantic validation first
(store untouched on failure), then the handler body. -/
def post_tenders (raw : RawTenderCreate) (newId : String) (now1 now2 : DateTime)
    (store : List StoredTender) : Except ApiError Tender × List StoredTender :=
  match parseTenderCreate raw with
  | none => (.error .validation, store)
  | some td =>
    match create_tender td newId now1 now2 store with
    | none => (.error .internal, store)
    | some (t, store') => (.ok t, store')

/-- The query-building steps of `get_tenders`: `if status:` adds the
key only when the parameter is present and truthy (a non-empty
string). -/
def addIfTruthy : Option String → Option String
  | none => none
  | some s => if s = "" then none else some s

/-- The list comprehension `[Tender(**t) for t in tenders]`: convert
every fetched document, aborting on the first conversion failure (the
`ValueError` the Python would raise). -/
def docsToTenders : List StoredTender → Option (List Tender)
  | [] => some []
  | d :: ds => do
    let t ← docToTender d
    let ts ← docsToTenders ds
    pure (t :: ts)

/-- `GET /api/tenders` with optional `status`/`priority`/`customer`
query parameters. -/
def get_tenders (status priority customer : Option String)
    (store : List StoredTender) : Except ApiError (List Tender) :=
  let query : TenderQuery :=
    ⟨addIfTruthy status, addIfTruthy priority, addIfTruthy customer⟩
  let tenders := find_to_list store query
  match docsToTenders tenders with
  | none => .error .internal
  | some ts => .ok ts

/-- `GET /api/tenders/{tender_id}`. -/
def get_tender (tender_id : String) (store : List StoredTender) :
    Except ApiError Tender :=
  match find_one store tender_id with
  | none => .error .notFound
  | some tender =>
    match docToTender tender with
    | none => .error .internal
    | some t => .ok t

/-- The `$set` document `update_tender` builds from a validated
payload: drop the `None` fields, stringify the present date fields,
always set `updated_at` to the current time. -/
def buildUpdateDoc (tu : TenderUpdate) (now : DateTime) : UpdateDoc where
  item := tu.item
  customer := tu.customer
  tender_name := tu.tender_name
  status := tu.status
  start_date := tu.start_date.map Date.isoformat
  expiry_date := tu.expiry_date.map Date.isoformat
  due_date := tu.due_date.map DateTime.isoformat
  deal_value := tu.deal_value
  priority := tu.priority
  assigned_sales_rep := tu.assigned_sales_rep
  updated_at := some now

/-- `update_tender` (handler body, after validation): partial `$set`,
404 when nothing matched, then re-fetch and convert.  In this
sequential model the re-fetch after a successful match always finds a
document, but the `none` branch is kept because the Python would crash
(500) there. -/
def update_tender (tender_id : String) (tender_update : TenderUpdate)
    (now : DateTime) (store : List StoredTender) :
    Except ApiError Tender × List StoredTender :=
  let r := update_one store tender_id (buildUpdateDoc tender_update now)
  if r.2 = 0 then (.error .notFound, r.1)
  else
    match find_one r.1 tender_id with
    | none => (.error .internal, r.1)
    | some updated_tender =>
      match docToTender updated_tender with
      | none => (.error .internal, r.1)
      | some t => (.ok t, r.1)

/-- `PUT /api/tenders/{tender_id}` at the wire level: pydantic
validation first (store untouched on failure), then the handler body. -/
def put_tenders (tender_id : String) (raw : RawTenderUpdate) (now : DateTime)
    (store : List StoredTender) : Except ApiError Tender × List StoredTender :=
  match parseTenderUpdate raw with
  | none => (.error .validation, store)
  | some tu => update_tender tender_id tu now store

/-- `DELETE /api/tenders/{tender_id}`: hard delete, 404 when nothing
was deleted, confirmation message otherwise. -/
def delete_tender (tender_id : String) (store : List StoredTender) :
    Except ApiError String × List StoredTender :=
  let r := delete_one store tender_id
  if r.2 = 0 then (.error .notFound, r.1)
  else (.ok "Tender deleted successfully", r.1)


/-! ## Concrete sample values (used to instantiate the theorems) -/

/-- A stored document as `create_tender` would have written it. -/
def acmeDoc : StoredTender :=
  ⟨"id-1", "Widget", "Acme", "T1", .OFFER, "2024-01-01", "2024-06-30",
    "2024-01-15T10:00:00", 5000, .HIGH, "Alice", ⟨2024, 1, 1, 9, 0, 0⟩,
    ⟨2024, 1, 1, 9, 0, 0⟩⟩

/-- The typed record `acmeDoc` converts to. -/
def acmeTender : Tender :=
  ⟨"id-1", "Widget", "Acme", "T1", .OFFER, ⟨2024, 1, 1⟩, ⟨2024, 6, 30⟩,
    ⟨2024, 1, 15, 10, 0, 0⟩, 5000, .HIGH, "Alice", ⟨2024, 1, 1, 9, 0, 0⟩,
    ⟨2024, 1, 1, 9, 0, 0⟩⟩

/-- A fully valid wire-level create payload. -/
def sampleRawCreate : RawTenderCreate :=
  ⟨some "Widget", some "Acme", some "T1", some "Offer", some "2024-01-01",
    some "2024-06-30", some "2024-01-15T10:00:00", some 5000, some "High",
    some "Alice"⟩

/-- The validated form of `sampleRawCreate`. -/
def sampleCreate : TenderCreate :=
  ⟨"Widget", "Acme", "T1", .OFFER, ⟨2024, 1, 1⟩, ⟨2024, 6, 30⟩,
    ⟨2024, 1, 15, 10, 0, 0⟩, 5000, .HIGH, "Alice"⟩

/-! ## Round-trip lemmas for the date representation -/

theorem charDigit?_digitChar (n : Nat) (h : n < 10) :
    charDigit? (digitChar n) = some n := by
  interval_cases n <;> rfl

theorem parse2_pad2 (n : Nat) (h : n < 100) :
    parse2 (digitChar (n / 10 % 10)) (digitChar (n % 10)) = some n := by
  rw [parse2, charDigit?_digitChar _ (Nat.mod_lt _ (by omega)),
    charDigit?_digitChar _ (Nat.mod_lt _ (by omega))]
  simp only [Option.bind_eq_bind, Option.some_bind, Option.pure_def]
  congr 1
  omega

theorem parse4_pad4 (n : Nat) (h : n < 10000) :
    parse4 (digitChar (n / 1000 % 10)) (digitChar (n / 100 % 10))
      (digitChar (n / 10 % 10)) (digitChar (n % 10)) = some n := by
  rw [parse4, charDigit?_digitChar _ (Nat.mod_lt _ (by omega)),
    charDigit?_digitChar _ (Nat.mod_lt _ (by omega)),
    charDigit?_digitChar _ (Nat.mod_lt _ (by omega)),
    charDigit?_digitChar _ (Nat.mod_lt _ (by omega))]
  simp only [Option.bind_eq_bind, Option.some_bind, Option.pure_def]
  congr 1
  omega

/-- Parsing back what `datetime.isoformat` produced recovers the value. -/
theorem fromisoformat_isoformat (t : DateTime) (h : t.valid) :
    fromisoformat t.isoformat = some t := by
  obtain ⟨h1, h2, h3, h4, h5, h6, h7, h8, h9⟩ := h
  show fromisoformat ⟨_⟩ = some t
  rw [fromisoformat]
  simp only [pad4, pad2, List.cons_append, List.nil_append]
  rw [parse4_pad4 _ (by omega), parse2_pad2 _ (by omega), parse2_pad2 _ (by omega),
    parse2_pad2 _ (by omega), parse2_pad2 _ (by omega), parse2_pad2 _ (by omega)]
  simp only [Option.bind_eq_bind, Option.some_bind]
  rw [if_pos (by decide), if_pos (by omega)]

/-- Parsing back what `date.isoformat` produced recovers the date. -/
theorem date_fromisoformat_isoformat (d : Date) (h : d.valid) :
    date_fromisoformat d.isoformat = some d := by
  obtain ⟨h1, h2, h3, h4, h5, h6⟩ := h
  show date_fromisoformat ⟨_⟩ = some d
  rw [date_fromisoformat, fromisoformat]
  simp only [pad4, pad2, List.cons_append, List.nil_append]
  rw [parse4_pad4 _ (by omega), parse2_pad2 _ (by omega), parse2_pad2 _ (by omega)]
  simp only [Option.bind_eq_bind, Option.some_bind]
  rw [if_pos (by decide), if_pos (by omega)]
  rfl

/-! ## Inversion lemmas for the parsers -/

theorem charDigit?_le_nine {c : Char} {n : Nat} (h : charDigit? c = some n) : n ≤ 9 := by
  unfold charDigit? at h
  split at h
  · rename_i hc
    injection h with h
    omega
  · cases h

theorem parse2_le {a b : Char} {n : Nat} (h : parse2 a b = some n) : n ≤ 99 := by
  unfold parse2 at h
  simp only [Option.bind_eq_bind, Option.bind_eq_some, Option.pure_def,
    Option.some.injEq] at h
  obtain ⟨x, hx, y, hy, hn⟩ := h
  have := charDigit?_le_nine hx
  have := charDigit?_le_nine hy
  omega

theorem parse4_le {a b c d : Char} {n : Nat} (h : parse4 a b c d = some n) : n ≤ 9999 := by
  unfold parse4 at h
  simp only [Option.bind_eq_bind, Option.bind_eq_some, Option.pure_def,
    Option.some.injEq] at h
  obtain ⟨x, hx, y, hy, z, hz, w, hw, hn⟩ := h
  have := charDigit?_le_nine hx
  have := charDigit?_le_nine hy
  have := charDigit?_le_nine hz
  have := charDigit?_le_nine hw
  omega

/-- Everything `fromisoformat` accepts is a representable datetime. -/
theorem fromisoformat_valid {s : String} {t : DateTime}
    (h : fromisoformat s = some t) : t.valid := by
  unfold fromisoformat at h
  split at h
  · split at h
    · simp only [Option.bind_eq_bind, Option.bind_eq_some] at h
      obtain ⟨y, hy, m, hm, d, hd, h⟩ := h
      have := parse4_le hy
      split at h
      · rename_i hcond
        injection h with h
        subst h
        show 1 ≤ y ∧ y ≤ 9999 ∧ 1 ≤ m ∧ m ≤ 12 ∧ 1 ≤ d ∧ d ≤ 31 ∧
          (0:Nat) ≤ 23 ∧ (0:Nat) ≤ 59 ∧ (0:Nat) ≤ 59
        omega
      · cases h
    · cases h
  · split at h
    · simp only [Option.bind_eq_bind, Option.bind_eq_some] at h
      obtain ⟨y, hy, m, hm, d, hd, hh, hhp, n, hn, e, he, h⟩ := h
      have := parse4_le hy
      split at h
      · rename_i hcond
        injection h with h
        subst h
        show 1 ≤ y ∧ y ≤ 9999 ∧ 1 ≤ m ∧ m ≤ 12 ∧ 1 ≤ d ∧ d ≤ 31 ∧
          hh ≤ 23 ∧ n ≤ 59 ∧ e ≤ 59
        omega
      · cases h
    · cases h
  · cases h

/-- Everything the date read-path accepts is a representable date. -/
theorem date_fromisoformat_valid {s : String} {d : Date}
    (h : date_fromisoformat s = some d) : d.valid := by
  unfold date_fromisoformat at h
  simp only [Option.map_eq_some'] at h
  obtain ⟨t, ht, hd⟩ := h
  obtain ⟨h1, h2, h3, h4, h5, h6, _, _, _⟩ := fromisoformat_valid ht
  subst hd
  exact ⟨h1, h2, h3, h4, h5, h6⟩

/-- Validation guarantees the three date fields of a create payload are
representable values. -/
theorem parseTenderCreate_dates_valid {r : RawTenderCreate} {td : TenderCreate}
    (h : parseTenderCreate r = some td) :
    td.start_date.valid ∧ td.expiry_date.valid ∧ td.due_date.valid := by
  unfold parseTenderCreate at h
  simp only [Option.bind_eq_bind, Option.bind_eq_some] at h
  obtain ⟨item, hitem, customer, hcust, tn, htn, h⟩ := h
  split at h
  · simp only [Option.some_bind, Option.bind_eq_some, Option.pure_def,
      Option.some.injEq] at h
    obtain ⟨sd, hsd, ed, hed, dd, hdd, dv, hdv, h⟩ := h
    split at h
    · simp at h
    · simp only [Option.bind_eq_some, Option.pure_def, Option.some.injEq] at h
      obtain ⟨pr, hprv, rep, hrep, htd⟩ := h
      subst htd
      obtain ⟨s0, -, hs0⟩ := hsd
      obtain ⟨e0, -, he0⟩ := hed
      obtain ⟨d0, -, hd0⟩ := hdd
      exact ⟨date_fromisoformat_valid hs0, date_fromisoformat_valid he0,
        fromisoformat_valid hd0⟩
  · simp only [Option.bind_eq_some, Option.pure_def, Option.some.injEq] at h
    obtain ⟨st, hstv, sd, hsd, ed, hed, dd, hdd, dv, hdv, h⟩ := h
    split at h
    · simp at h
    · simp only [Option.bind_eq_some, Option.pure_def, Option.some.injEq] at h
      obtain ⟨pr, hprv, rep, hrep, htd⟩ := h
      subst htd
      obtain ⟨s0, -, hs0⟩ := hsd
      obtain ⟨e0, -, he0⟩ := hed
      obtain ⟨d0, -, hd0⟩ := hdd
      exact ⟨date_fromisoformat_valid hs0, date_fromisoformat_valid he0,
        fromisoformat_valid hd0⟩

/-! ## Store lemmas -/

theorem find_one_append_left_none {pre : List StoredTender} {tid : String}
    (l : List StoredTender) (h : ∀ e ∈ pre, ¬(e.id = tid)) :
    find_one (pre ++ l) tid = find_one l tid := by
  unfold find_one
  rw [List.find?_append]
  have : pre.find? (fun d => d.id == tid) = none := by
    rw [List.find?_eq_none]
    intro x hx
    simpa using h x hx
  rw [this, Option.none_or]

/-- `update_one` never touches the `id` field of any document. -/
theorem update_one_ids (store : List StoredTender) (tid : String) (u : UpdateDoc) :
    ((update_one store tid u).1).map StoredTender.id = store.map StoredTender.id := by
  induction store with
  | nil => rfl
  | cons d ds ih =>
    by_cases h : d.id = tid
    · simp [update_one, h, applySet]
    · simp [update_one, h, ih]

/-- A query that matches nothing leaves `update_one` a no-op with
`matched_count = 0`. -/
theorem update_one_not_found {store : List StoredTender} {tid : String}
    (u : UpdateDoc) (h : find_one store tid = none) :
    update_one store tid u = (store, 0) := by
  induction store with
  | nil => rfl
  | cons d ds ih =>
    unfold find_one at h
    rw [List.find?_eq_none] at h
    have hd : ¬(d.id = tid) := by simpa using h d (by simp)
    have hds : find_one ds tid = none := by
      unfold find_one
      rw [List.find?_eq_none]
      intro x hx
      exact h x (by simp [hx])
    simp [update_one, hd, ih hds]

/-- When the id matches some document, `update_one` reports
`matched_count = 1` and rewrites exactly the first match, leaving every
other document in place. -/
theorem update_one_split {store : List StoredTender} {tid : String} {d : StoredTender}
    (u : UpdateDoc) (h : find_one store tid = some d) :
    d.id = tid ∧ (update_one store tid u).2 = 1 ∧
    ∃ pre post, store = pre ++ d :: post ∧ (∀ e ∈ pre, ¬(e.id = tid)) ∧
      (update_one store tid u).1 = pre ++ applySet d u :: post := by
  induction store with
  | nil => cases h
  | cons e ds ih =>
    by_cases he : e.id = tid
    · unfold find_one at h
      rw [List.find?_cons_of_pos _ (by simpa using he)] at h
      injection h with h
      subst h
      exact ⟨he, by simp [update_one, he], [], ds, rfl, by simp,
        by simp [update_one, he]⟩
    · unfold find_one at h
      rw [List.find?_cons_of_neg _ (by simpa using he)] at h
      obtain ⟨hid, hc, pre, post, hsplit, hpre, hupd⟩ := ih h
      refine ⟨hid, by simp [update_one, he, hc], e :: pre, post, by simp [hsplit],
        ?_, by simp [update_one, he, hupd]⟩
      intro x hx
      rcases List.mem_cons.mp hx with hx | hx
      · subst hx; exact he
      · exact hpre x hx

/-- A query that matches nothing leaves `delete_one` a no-op with
`deleted_count = 0`. -/
theorem delete_one_not_found {store : List StoredTender} {tid : String}
    (h : find_one store tid = none) :
    delete_one store tid = (store, 0) := by
  induction store with
  | nil => rfl
  | cons d ds ih =>
    unfold find_one at h
    rw [List.find?_eq_none] at h
    have hd : ¬(d.id = tid) := by simpa using h d (by simp)
    have hds : find_one ds tid = none := by
      unfold find_one
      rw [List.find?_eq_none]
      intro x hx
      exact h x (by simp [hx])
    simp [delete_one, hd, ih hds]

/-- Deletion only removes documents: the surviving id list is a
sublist of the original. -/
theorem delete_one_ids_sublist (store : List StoredTender) (tid : String) :
    List.Sublist (((delete_one store tid).1).map StoredTender.id)
      (store.map StoredTender.id) := by
  induction store with
  | nil => simp [delete_one]
  | cons d ds ih =>
    by_cases h : d.id = tid
    · simp only [delete_one, if_pos h, List.map_cons]
      exact List.sublist_cons_self _ _
    · simp only [delete_one, if_neg h, List.map_cons]
      exact List.Sublist.cons₂ _ ih

/-- The post-state of the update handler is always the collection
`update_one` produced, whatever the response was. -/
theorem update_tender_store (tid : String) (tu : TenderUpdate) (now : DateTime)
    (store : List StoredTender) :
    (update_tender tid tu now store).2 =
      (update_one store tid (buildUpdateDoc tu now)).1 := by
  simp only [update_tender]
  split
  · rfl
  · split
    · rfl
    · split <;> rfl

/-- The post-state of the delete handler is always the collection
`delete_one` produced. -/
theorem delete_tender_store (tid : String) (store : List StoredTender) :
    (delete_tender tid store).2 = (delete_one store tid).1 := by
  simp only [delete_tender]
  split <;> rfl

/-- After a matched `update_one`, looking the id up again finds exactly
the `$set`-rewritten document. -/
theorem update_one_find {store : List StoredTender} {tid : String} {d : StoredTender}
    (u : UpdateDoc) (h : find_one store tid = some d) :
    (update_one store tid u).2 = 1 ∧
    find_one (update_one store tid u).1 tid = some (applySet d u) := by
  obtain ⟨hid, hc, pre, post, hsplit, hpre, hupd⟩ := update_one_split u h
  refine ⟨hc, ?_⟩
  rw [hupd, find_one_append_left_none _ hpre]
  unfold find_one
  rw [List.find?_cons_of_pos]
  simp [applySet, hid]

/-- Field content of a converted document: everything but the three
date strings is carried over verbatim, and the dates are the parses of
the stored strings. -/
theorem docToTender_inv {d : StoredTender} {t : Tender}
    (h : docToTender d = some t) :
    t.id = d.id ∧ t.item = d.item ∧ t.customer = d.customer ∧
    t.tender_name = d.tender_name ∧ t.status = d.status ∧
    date_fromisoformat d.start_date = some t.start_date ∧
    date_fromisoformat d.expiry_date = some t.expiry_date ∧
    fromisoformat d.due_date = some t.due_date ∧
    t.deal_value = d.deal_value ∧ t.priority = d.priority ∧
    t.assigned_sales_rep = d.assigned_sales_rep ∧
    t.created_at = d.created_at ∧ t.updated_at = d.updated_at := by
  unfold docToTender at h
  simp only [Option.bind_eq_bind, Option.bind_eq_some, Option.pure_def,
    Option.some.injEq] at h
  obtain ⟨sd, hsd, ed, hed, dd, hdd, ht⟩ := h
  subst ht
  exact ⟨rfl, rfl, rfl, rfl, rfl, hsd, hed, hdd, rfl, rfl, rfl, rfl, rfl⟩

/-- Every tender produced by `docsToTenders` comes from a document of
the input list, and the lengths agree. -/
theorem docsToTenders_mem {l : List StoredTender} {ts : List Tender}
    (h : docsToTenders l = some ts) :
    ts.length = l.length ∧ ∀ t ∈ ts, ∃ d ∈ l, docToTender d = some t := by
  induction l generalizing ts with
  | nil =>
    unfold docsToTenders at h
    injection h with h
    subst h
    simp
  | cons d ds ih =>
    unfold docsToTenders at h
    simp only [Option.bind_eq_bind, Option.bind_eq_some, Option.pure_def,
      Option.some.injEq] at h
    obtain ⟨t, ht, ts0, hts0, hts⟩ := h
    subst hts
    obtain ⟨hlen, hmem⟩ := ih hts0
    refine ⟨(by simp [hlen]), ?_⟩
    intro x hx
    rcases List.mem_cons.mp hx with hx | hx
    · exact ⟨d, List.mem_cons_self d ds, hx ▸ ht⟩
    · obtain ⟨e, he, hxe⟩ := hmem x hx
      exact ⟨e, List.mem_cons_of_mem d he, hxe⟩

/-- Validation of one update field never turns an absent-or-null field
into a value. -/
theorem parseOptField_null {α β : Type} {f : α → Option β} {o : Option (Option α)}
    {b : Option β} (h : parseOptField f o = some b) (ho : o = some none) :
    b = none := by
  subst ho
  unfold parseOptField at h
  injection h with h
  exact h.symm

/-- A present update-field value must itself parse. -/
theorem parseOptField_some_some {α β : Type} {f : α → Option β} {o : Option (Option α)}
    {b : Option β} (h : parseOptField f o = some b) {a : α} (ha : o = some (some a)) :
    ∃ x, f a = some x ∧ b = some x := by
  subst ha
  unfold parseOptField at h
  simp only [Option.map_eq_some'] at h
  obtain ⟨x, hx, hb⟩ := h
  exact ⟨x, hx, hb.symm⟩

/-- Field-by-field inversion of update validation. -/
theorem parseTenderUpdate_inv {r : RawTenderUpdate} {tu : TenderUpdate}
    (h : parseTenderUpdate r = some tu) :
    parseOptField some r.item = some tu.item ∧
    parseOptField some r.customer = some tu.customer ∧
    parseOptField some r.tender_name = some tu.tender_name ∧
    parseOptField TenderStatus.fromStr? r.status = some tu.status ∧
    parseOptField date_fromisoformat r.start_date = some tu.start_date ∧
    parseOptField date_fromisoformat r.expiry_date = some tu.expiry_date ∧
    parseOptField fromisoformat r.due_date = some tu.due_date ∧
    parseOptField some r.deal_value = some tu.deal_value ∧
    parseOptField PriorityLevel.fromStr? r.priority = some tu.priority ∧
    parseOptField some r.assigned_sales_rep = some tu.assigned_sales_rep := by
  unfold parseTenderUpdate at h
  simp only [Option.bind_eq_bind, Option.bind_eq_some, Option.pure_def,
    Option.some.injEq] at h
  obtain ⟨i, hi, c, hc, tn, htn, st, hst, sd, hsd, ed, hed, dd, hdd, dv, hdv,
    pr, hpr, rep, hrep, htu⟩ := h
  subst htu
  exact ⟨hi, hc, htn, hst, hsd, hed, hdd, hdv, hpr, hrep⟩

/-- A create payload that passes validation had a parseable status
whenever one was present (and likewise for priority). -/
theorem parseTenderCreate_enum_inv {r : RawTenderCreate} {td : TenderCreate}
    (h : parseTenderCreate r = some td) :
    (∀ s, r.status = some s → TenderStatus.fromStr? s = some td.status) ∧
    (∀ p, r.priority = some p → PriorityLevel.fromStr? p = some td.priority) := by
  unfold parseTenderCreate at h
  simp only [Option.bind_eq_bind, Option.bind_eq_some] at h
  obtain ⟨item, hitem, customer, hcust, tn, htn, h⟩ := h
  split at h
  · rename_i hstat
    simp only [Option.some_bind, Option.bind_eq_some, Option.pure_def,
      Option.some.injEq] at h
    obtain ⟨sd, hsd, ed, hed, dd, hdd, dv, hdv, h⟩ := h
    split at h
    · simp at h
    · rename_i p hprio
      simp only [Option.bind_eq_some, Option.pure_def, Option.some.injEq] at h
      obtain ⟨pr, hprv, rep, hrep, htd⟩ := h
      subst htd
      constructor
      · intro s2 hs2
        rw [hstat] at hs2
        exact Option.noConfusion hs2
      · intro q hq
        rw [hprio] at hq
        injection hq with hq
        subst hq
        exact hprv
  · rename_i s hstat
    simp only [Option.bind_eq_some, Option.pure_def, Option.some.injEq] at h
    obtain ⟨st, hstv, sd, hsd, ed, hed, dd, hdd, dv, hdv, h⟩ := h
    split at h
    · simp at h
    · rename_i p hprio
      simp only [Option.bind_eq_some, Option.pure_def, Option.some.injEq] at h
      obtain ⟨pr, hprv, rep, hrep, htd⟩ := h
      subst htd
      constructor
      · intro s2 hs2
        rw [hstat] at hs2
        injection hs2 with hs2
        subst hs2
        exact hstv
      · intro q hq
        rw [hprio] at hq
        injection hq with hq
        subst hq
        exact hprv

/-- A create payload without a status field validates to the default
status `"Offer"`. -/
theorem parseTenderCreate_status_none {r : RawTenderCreate} {td : TenderCreate}
    (hst : r.status = none) (h : parseTenderCreate r = some td) :
    td.status = TenderStatus.OFFER := by
  unfold parseTenderCreate at h
  rw [hst] at h
  simp only [Option.bind_eq_bind, Option.some_bind, Option.bind_eq_some] at h
  obtain ⟨item, hitem, customer, hcust, tn, htn, sd, hsd, ed, hed, dd, hdd,
    dv, hdv, h⟩ := h
  split at h
  · simp at h
  · simp only [Option.bind_eq_some, Option.pure_def, Option.some.injEq] at h
    obtain ⟨pr, hprv, rep, hrep, htd⟩ := h
    subst htd
    rfl

/-- Evaluating `create_tender` on a payload with representable dates:
the write-read conversion inside the handler is the identity, one
document is appended, and the response carries the payload's values
with `id`/`created_at`/`updated_at` filled in. -/
theorem create_tender_ok (td : TenderCreate) (newId : String) (now1 now2 : DateTime)
    (store : List StoredTender)
    (h1 : td.start_date.valid) (h2 : td.expiry_date.valid) (h3 : td.due_date.valid) :
    create_tender td newId now1 now2 store =
      some (⟨newId, td.item, td.customer, td.tender_name, td.status, td.start_date,
          td.expiry_date, td.due_date, td.deal_value, td.priority,
          td.assigned_sales_rep, now1, now2⟩,
        store ++ [⟨newId, td.item, td.customer, td.tender_name, td.status,
          td.start_date.isoformat, td.expiry_date.isoformat, td.due_date.isoformat,
          td.deal_value, td.priority, td.assigned_sales_rep, now1, now2⟩]) := by
  unfold create_tender
  rw [date_fromisoformat_isoformat _ h1, date_fromisoformat_isoformat _ h2,
    fromisoformat_isoformat _ h3]
  rfl

/-! ## Claims -/

/-- C4: for every id with no matching record in the store, get-by-id,
update and delete each signal the not-found error (HTTP 404) and leave
the store unchanged (get is read-only by construction; update and
delete return the collection exactly as it was). -/
theorem not_found_operations
    (tid : String) (tu : TenderUpdate) (now : DateTime) (store : List StoredTender)
    (h : find_one store tid = none) :
    get_tender tid store = .error .notFound ∧
    update_tender tid tu now store = (.error .notFound, store) ∧
    delete_tender tid store = (.error .notFound, store) ∧
    ApiError.notFound.statusCode = 404 := by
  refine ⟨?_, ?_, ?_, rfl⟩
  · unfold get_tender
    rw [h]
  · simp [update_tender, update_one_not_found _ h]
  · simp [delete_tender, delete_one_not_found h]

theorem not_found_operations_witness :
    get_tender "missing" [acmeDoc] = .error .notFound ∧
    update_tender "missing" {} ⟨2024, 2, 1, 0, 0, 0⟩ [acmeDoc] =
      (.error .notFound, [acmeDoc]) ∧
    delete_tender "missing" [acmeDoc] = (.error .notFound, [acmeDoc]) ∧
    ApiError.notFound.statusCode = 404 :=
  not_found_operations "missing" {} ⟨2024, 2, 1, 0, 0, 0⟩ [acmeDoc] rfl

/-- C9: a filter query parameter that is present but equal to the empty
string is treated exactly as an absent filter — `if status:` is false
for `""` — so the request never restricts to records whose field equals
the empty string. -/
theorem empty_string_filter_treated_as_absent
    (status priority customer : Option String) (store : List StoredTender) :
    get_tenders (some "") priority customer store =
      get_tenders none priority customer store ∧
    get_tenders status (some "") customer store =
      get_tenders status none customer store ∧
    get_tenders status priority (some "") store =
      get_tenders status priority none store :=
  ⟨rfl, rfl, rfl⟩

/-- C5 fails as stated: `created_at` and `updated_at` come from two
separate `datetime.utcnow` default-factory calls, and nothing in the
code makes the two readings equal — on a valid payload whose two clock
readings differ, the created record has `created_at ≠ updated_at`. -/
theorem create_timestamps_counterexample :
    ∃ t store', create_tender sampleCreate "id-9" ⟨2024, 1, 20, 12, 0, 0⟩
        ⟨2024, 1, 20, 12, 0, 1⟩ [] = some (t, store') ∧
      t.id = "id-9" ∧ ¬(t.created_at = t.updated_at) :=
  ⟨_, _, create_tender_ok sampleCreate "id-9" ⟨2024, 1, 20, 12, 0, 0⟩
    ⟨2024, 1, 20, 12, 0, 1⟩ [] (by decide) (by decide) (by decide), rfl, by decide⟩

/-- C5 (amended): a create with a representable payload succeeds and
returns the freshly drawn id — unique among all records when the drawn
uuid is new to the collection — and its `created_at` and `updated_at`
are the request's two `utcnow` readings in order, so they are equal
exactly when those readings coincide. -/
theorem create_fresh_id_and_request_timestamps
    (td : TenderCreate) (newId : String) (now1 now2 : DateTime)
    (store : List StoredTender)
    (h1 : td.start_date.valid) (h2 : td.expiry_date.valid) (h3 : td.due_date.valid)
    (hfresh : ¬ newId ∈ store.map StoredTender.id) :
    ∃ t doc, create_tender td newId now1 now2 store = some (t, store ++ [doc]) ∧
      t.id = newId ∧ t.created_at = now1 ∧ t.updated_at = now2 ∧
      (now1 = now2 → t.created_at = t.updated_at) ∧ doc.id = t.id ∧
      ¬ t.id ∈ store.map StoredTender.id :=
  ⟨_, _, create_tender_ok td newId now1 now2 store h1 h2 h3, rfl, rfl, rfl,
    fun h => h, rfl, hfresh⟩

theorem create_fresh_id_and_request_timestamps_witness :
    ∃ t doc, create_tender sampleCreate "id-9" ⟨2024, 1, 20, 12, 0, 0⟩
        ⟨2024, 1, 20, 12, 0, 0⟩ [acmeDoc] = some (t, [acmeDoc] ++ [doc]) ∧
      t.id = "id-9" ∧ t.created_at = ⟨2024, 1, 20, 12, 0, 0⟩ ∧
      t.updated_at = ⟨2024, 1, 20, 12, 0, 0⟩ ∧
      ((⟨2024, 1, 20, 12, 0, 0⟩ : DateTime) = ⟨2024, 1, 20, 12, 0, 0⟩ →
        t.created_at = t.updated_at) ∧ doc.id = t.id ∧
      ¬ t.id ∈ [acmeDoc].map StoredTender.id :=
  create_fresh_id_and_request_timestamps sampleCreate "id-9"
    ⟨2024, 1, 20, 12, 0, 0⟩ ⟨2024, 1, 20, 12, 0, 0⟩ [acmeDoc]
    (by decide) (by decide) (by decide) (by decide)

/-- C7: a create payload that omits `status` but passes validation
otherwise is accepted, and both the validated payload and the record
the endpoint returns carry the default status `"Offer"`. -/
theorem create_defaults_status_to_offer
    (raw : RawTenderCreate) (td : TenderCreate) (newId : String)
    (now1 now2 : DateTime) (store : List StoredTender)
    (hst : raw.status = none)
    (hparse : parseTenderCreate raw = some td) :
    td.status = TenderStatus.OFFER ∧
    ∃ t store', post_tenders raw newId now1 now2 store = (.ok t, store') ∧
      t.status = TenderStatus.OFFER := by
  have hoff := parseTenderCreate_status_none hst hparse
  obtain ⟨h1, h2, h3⟩ := parseTenderCreate_dates_valid hparse
  refine ⟨hoff, ⟨newId, td.item, td.customer, td.tender_name, td.status,
    td.start_date, td.expiry_date, td.due_date, td.deal_value, td.priority,
    td.assigned_sales_rep, now1, now2⟩,
    store ++ [⟨newId, td.item, td.customer, td.tender_name, td.status,
      td.start_date.isoformat, td.expiry_date.isoformat, td.due_date.isoformat,
      td.deal_value, td.priority, td.assigned_sales_rep, now1, now2⟩], ?_, hoff⟩
  simp only [post_tenders, hparse, create_tender_ok td newId now1 now2 store h1 h2 h3]

theorem create_defaults_status_to_offer_witness :
    sampleCreate.status = TenderStatus.OFFER ∧
    ∃ t store',
      post_tenders { sampleRawCreate with status := none } "id-9"
        ⟨2024, 1, 20, 12, 0, 0⟩ ⟨2024, 1, 20, 12, 0, 1⟩ [] = (.ok t, store') ∧
      t.status = TenderStatus.OFFER :=
  create_defaults_status_to_offer { sampleRawCreate with status := none }
    sampleCreate "id-9" ⟨2024, 1, 20, 12, 0, 0⟩ ⟨2024, 1, 20, 12, 0, 1⟩ [] rfl rfl

/-- C3: a create or update payload whose `status` or `priority` is
outside the enumerated literals fails validation — FastAPI rejects the
body with HTTP 422 before the handler body runs, so the store is
returned exactly as it was. -/
theorem invalid_enum_rejected_before_store
    (rawC : RawTenderCreate) (rawU : RawTenderUpdate) (tid newId : String)
    (now1 now2 now : DateTime) (store : List StoredTender)
    (hC : (∃ s, rawC.status = some s ∧ TenderStatus.fromStr? s = none) ∨
      (∃ p, rawC.priority = some p ∧ PriorityLevel.fromStr? p = none))
    (hU : (∃ s, rawU.status = some (some s) ∧ TenderStatus.fromStr? s = none) ∨
      (∃ p, rawU.priority = some (some p) ∧ PriorityLevel.fromStr? p = none)) :
    post_tenders rawC newId now1 now2 store = (.error .validation, store) ∧
    put_tenders tid rawU now store = (.error .validation, store) ∧
    ApiError.validation.statusCode = 422 := by
  have hpc : parseTenderCreate rawC = none := by
    rcases hp : parseTenderCreate rawC with _ | td
    · rfl
    · exfalso
      obtain ⟨hs, hq⟩ := parseTenderCreate_enum_inv hp
      rcases hC with ⟨s, ha, hb⟩ | ⟨p, ha, hb⟩
      · rw [hs s ha] at hb
        exact Option.noConfusion hb
      · rw [hq p ha] at hb
        exact Option.noConfusion hb
  have hpu : parseTenderUpdate rawU = none := by
    rcases hp : parseTenderUpdate rawU with _ | tu
    · rfl
    · exfalso
      have hinv := parseTenderUpdate_inv hp
      rcases hU with ⟨s, ha, hb⟩ | ⟨p, ha, hb⟩
      · obtain ⟨x, hx, -⟩ := parseOptField_some_some hinv.2.2.2.1 ha
        rw [hx] at hb
        exact Option.noConfusion hb
      · obtain ⟨x, hx, -⟩ := parseOptField_some_some hinv.2.2.2.2.2.2.2.2.1 ha
        rw [hx] at hb
        exact Option.noConfusion hb
  refine ⟨?_, ?_, rfl⟩
  · simp [post_tenders, hpc]
  · simp [put_tenders, hpu]

theorem invalid_enum_rejected_before_store_witness :
    post_tenders { sampleRawCreate with status := some "InvalidStatus" } "id-9"
      ⟨2024, 1, 1, 0, 0, 0⟩ ⟨2024, 1, 1, 0, 0, 1⟩ [acmeDoc] =
      (.error .validation, [acmeDoc]) ∧
    put_tenders "id-1" {status := some (some "InvalidStatus")}
      ⟨2024, 1, 1, 0, 0, 0⟩ [acmeDoc] = (.error .validation, [acmeDoc]) ∧
    ApiError.validation.statusCode = 422 :=
  invalid_enum_rejected_before_store
    { sampleRawCreate with status := some "InvalidStatus" }
    {status := some (some "InvalidStatus")} "id-1" "id-9" ⟨2024, 1, 1, 0, 0, 0⟩
    ⟨2024, 1, 1, 0, 0, 1⟩ ⟨2024, 1, 1, 0, 0, 0⟩ [acmeDoc]
    (Or.inl ⟨"InvalidStatus", rfl, rfl⟩) (Or.inl ⟨"InvalidStatus", rfl, rfl⟩)

/-- C1: creating a tender from a payload that passes validation and
then fetching it by the returned id yields the same record, whose
`start_date`, `expiry_date` (typed dates) and `due_date` (typed
date-time) equal the payload's values — the ISO-string write/parse
boundary is the identity on them.  Freshness of the drawn uuid is the
standing assumption on `uuid4`. -/
theorem create_then_get_date_roundtrip
    (raw : RawTenderCreate) (td : TenderCreate) (newId : String)
    (now1 now2 : DateTime) (store : List StoredTender)
    (hparse : parseTenderCreate raw = some td)
    (hfresh : ∀ e ∈ store, ¬(e.id = newId)) :
    ∃ t store', post_tenders raw newId now1 now2 store = (.ok t, store') ∧
      get_tender t.id store' = .ok t ∧
      t.start_date = td.start_date ∧ t.expiry_date = td.expiry_date ∧
      t.due_date = td.due_date := by
  obtain ⟨h1, h2, h3⟩ := parseTenderCreate_dates_valid hparse
  have hfind : find_one (store ++ [(⟨newId, td.item, td.customer, td.tender_name,
      td.status, td.start_date.isoformat, td.expiry_date.isoformat,
      td.due_date.isoformat, td.deal_value, td.priority, td.assigned_sales_rep,
      now1, now2⟩ : StoredTender)]) newId =
      some ⟨newId, td.item, td.customer, td.tender_name, td.status,
        td.start_date.isoformat, td.expiry_date.isoformat, td.due_date.isoformat,
        td.deal_value, td.priority, td.assigned_sales_rep, now1, now2⟩ := by
    rw [find_one_append_left_none _ hfresh]
    unfold find_one
    rw [List.find?_cons_of_pos]
    simp
  refine ⟨⟨newId, td.item, td.customer, td.tender_name, td.status, td.start_date,
      td.expiry_date, td.due_date, td.deal_value, td.priority,
      td.assigned_sales_rep, now1, now2⟩,
    store ++ [⟨newId, td.item, td.customer, td.tender_name, td.status,
      td.start_date.isoformat, td.expiry_date.isoformat, td.due_date.isoformat,
      td.deal_value, td.priority, td.assigned_sales_rep, now1, now2⟩],
    ?_, ?_, rfl, rfl, rfl⟩
  · simp only [post_tenders, hparse, create_tender_ok td newId now1 now2 store h1 h2 h3]
  · show get_tender newId _ = _
    unfold get_tender
    rw [hfind]
    simp only [docToTender, Option.bind_eq_bind, Option.some_bind, Option.pure_def,
      date_fromisoformat_isoformat _ h1, date_fromisoformat_isoformat _ h2,
      fromisoformat_isoformat _ h3]

theorem create_then_get_date_roundtrip_witness :
    ∃ t store', post_tenders sampleRawCreate "id-9" ⟨2024, 1, 20, 12, 0, 0⟩
        ⟨2024, 1, 20, 12, 0, 1⟩ [] = (.ok t, store') ∧
      get_tender t.id store' = .ok t ∧
      t.start_date = sampleCreate.start_date ∧
      t.expiry_date = sampleCreate.expiry_date ∧
      t.due_date = sampleCreate.due_date :=
  create_then_get_date_roundtrip sampleRawCreate sampleCreate "id-9"
    ⟨2024, 1, 20, 12, 0, 0⟩ ⟨2024, 1, 20, 12, 0, 1⟩ [] rfl (by simp)

/-- C8: `TenderUpdate` admits no `id` field and the `$set` document
built from it never carries one, so an update (even one that fails
validation or matches nothing) leaves the id of every stored document
unchanged; deletion only removes whole documents; and a create whose
drawn uuid is fresh preserves uniqueness of ids across the store. -/
theorem tender_id_immutable_and_unique
    (tid : String) (raw : RawTenderUpdate) (now : DateTime) (store : List StoredTender)
    (td : TenderCreate) (newId : String) (now1 now2 : DateTime)
    (huniq : (store.map StoredTender.id).Nodup)
    (hfresh : ¬ newId ∈ store.map StoredTender.id) :
    ((put_tenders tid raw now store).2).map StoredTender.id =
      store.map StoredTender.id ∧
    (((put_tenders tid raw now store).2).map StoredTender.id).Nodup ∧
    (((delete_tender tid store).2).map StoredTender.id).Nodup ∧
    ∀ t store', create_tender td newId now1 now2 store = some (t, store') →
      t.id = newId ∧ (store'.map StoredTender.id).Nodup := by
  have hput : ((put_tenders tid raw now store).2).map StoredTender.id =
      store.map StoredTender.id := by
    unfold put_tenders
    split
    · rfl
    · rw [update_tender_store, update_one_ids]
  refine ⟨hput, hput ▸ huniq, ?_, ?_⟩
  · rw [delete_tender_store]
    exact huniq.sublist (delete_one_ids_sublist store tid)
  · intro t store' hc
    unfold create_tender at hc
    simp only [Option.bind_eq_bind, Option.bind_eq_some, Option.pure_def,
      Option.some.injEq] at hc
    obtain ⟨sd, hsd, ed, hed, dd, hdd, hpair⟩ := hc
    injection hpair with ht hstore
    subst ht
    subst hstore
    refine ⟨rfl, ?_⟩
    simp only [insert_one, List.map_append, List.map_cons, List.map_nil]
    rw [List.nodup_append]
    refine ⟨huniq, List.nodup_singleton _, ?_⟩
    intro x hx hx2
    rw [List.mem_singleton] at hx2
    subst hx2
    exact hfresh hx

theorem tender_id_immutable_and_unique_witness :
    ((put_tenders "id-1" {} ⟨2024, 2, 1, 0, 0, 0⟩ [acmeDoc]).2).map StoredTender.id =
      [acmeDoc].map StoredTender.id :=
  (tender_id_immutable_and_unique "id-1" {} ⟨2024, 2, 1, 0, 0, 0⟩ [acmeDoc]
    sampleCreate "id-2" ⟨2024, 2, 1, 0, 0, 0⟩ ⟨2024, 2, 1, 0, 0, 1⟩
    (by simp [acmeDoc]) (by simp [acmeDoc])).1

/-- C10: an update field sent as an explicit JSON null is mapped to
`None` by validation and dropped from the `$set` document, so the
stored value of that field is untouched — no update can clear a field. -/
theorem null_update_fields_discarded
    (tid : String) (raw : RawTenderUpdate) (tu : TenderUpdate) (now : DateTime)
    (store : List StoredTender) (d : StoredTender)
    (hparse : parseTenderUpdate raw = some tu)
    (hfind : find_one store tid = some d) :
    find_one ((put_tenders tid raw now store).2) tid =
      some (applySet d (buildUpdateDoc tu now)) ∧
    (raw.item = some none → (applySet d (buildUpdateDoc tu now)).item = d.item) ∧
    (raw.customer = some none →
      (applySet d (buildUpdateDoc tu now)).customer = d.customer) ∧
    (raw.tender_name = some none →
      (applySet d (buildUpdateDoc tu now)).tender_name = d.tender_name) ∧
    (raw.status = some none → (applySet d (buildUpdateDoc tu now)).status = d.status) ∧
    (raw.start_date = some none →
      (applySet d (buildUpdateDoc tu now)).start_date = d.start_date) ∧
    (raw.expiry_date = some none →
      (applySet d (buildUpdateDoc tu now)).expiry_date = d.expiry_date) ∧
    (raw.due_date = some none →
      (applySet d (buildUpdateDoc tu now)).due_date = d.due_date) ∧
    (raw.deal_value = some none →
      (applySet d (buildUpdateDoc tu now)).deal_value = d.deal_value) ∧
    (raw.priority = some none →
      (applySet d (buildUpdateDoc tu now)).priority = d.priority) ∧
    (raw.assigned_sales_rep = some none →
      (applySet d (buildUpdateDoc tu now)).assigned_sales_rep =
        d.assigned_sales_rep) := by
  have hinv := parseTenderUpdate_inv hparse
  have hstore : (put_tenders tid raw now store).2 =
      (update_one store tid (buildUpdateDoc tu now)).1 := by
    simp only [put_tenders, hparse]
    exact update_tender_store tid tu now store
  refine ⟨?_, ?_, ?_, ?_, ?_, ?_, ?_, ?_, ?_, ?_, ?_⟩
  · rw [hstore]
    exact (update_one_find _ hfind).2
  · intro h
    have hn := parseOptField_null hinv.1 h
    simp [applySet, buildUpdateDoc, hn]
  · intro h
    have hn := parseOptField_null hinv.2.1 h
    simp [applySet, buildUpdateDoc, hn]
  · intro h
    have hn := parseOptField_null hinv.2.2.1 h
    simp [applySet, buildUpdateDoc, hn]
  · intro h
    have hn := parseOptField_null hinv.2.2.2.1 h
    simp [applySet, buildUpdateDoc, hn]
  · intro h
    have hn := parseOptField_null hinv.2.2.2.2.1 h
    simp [applySet, buildUpdateDoc, hn]
  · intro h
    have hn := parseOptField_null hinv.2.2.2.2.2.1 h
    simp [applySet, buildUpdateDoc, hn]
  · intro h
    have hn := parseOptField_null hinv.2.2.2.2.2.2.1 h
    simp [applySet, buildUpdateDoc, hn]
  · intro h
    have hn := parseOptField_null hinv.2.2.2.2.2.2.2.1 h
    simp [applySet, buildUpdateDoc, hn]
  · intro h
    have hn := parseOptField_null hinv.2.2.2.2.2.2.2.2.1 h
    simp [applySet, buildUpdateDoc, hn]
  · intro h
    have hn := parseOptField_null hinv.2.2.2.2.2.2.2.2.2 h
    simp [applySet, buildUpdateDoc, hn]

theorem null_update_fields_discarded_witness :
    find_one ((put_tenders "id-1" {customer := some none} ⟨2024, 2, 1, 0, 0, 0⟩
        [acmeDoc]).2) "id-1" =
      some (applySet acmeDoc (buildUpdateDoc {} ⟨2024, 2, 1, 0, 0, 0⟩)) ∧
    (applySet acmeDoc (buildUpdateDoc {} ⟨2024, 2, 1, 0, 0, 0⟩)).customer =
      acmeDoc.customer := by
  have h := null_update_fields_discarded "id-1" {customer := some none} {}
    ⟨2024, 2, 1, 0, 0, 0⟩ [acmeDoc] acmeDoc rfl rfl
  exact ⟨h.1, h.2.2.1 rfl⟩

/-- A matched document agrees with a provided status filter. -/
theorem matchesQuery_status {q : TenderQuery} {d : StoredTender} {s : String}
    (h : matchesQuery q d = true) (hq : q.status = some s) : s = d.status.toStr := by
  unfold matchesQuery at h
  rw [hq] at h
  simp only [Bool.and_eq_true, beq_iff_eq] at h
  exact h.1.1

/-- A matched document agrees with a provided priority filter. -/
theorem matchesQuery_priority {q : TenderQuery} {d : StoredTender} {p : String}
    (h : matchesQuery q d = true) (hq : q.priority = some p) : p = d.priority.toStr := by
  unfold matchesQuery at h
  rw [hq] at h
  simp only [Bool.and_eq_true, beq_iff_eq] at h
  exact h.1.2

/-- A matched document agrees with a provided customer filter. -/
theorem matchesQuery_customer {q : TenderQuery} {d : StoredTender} {c : String}
    (h : matchesQuery q d = true) (hq : q.customer = some c) : c = d.customer := by
  unfold matchesQuery at h
  rw [hq] at h
  simp only [Bool.and_eq_true, beq_iff_eq] at h
  exact h.2

/-- C2: an update on an existing record succeeds (given a well-formed
stored document and representable payload dates), rewrites exactly the
non-null payload fields, always refreshes `updated_at` to the request
time, leaves `id`, `created_at` and every absent field unchanged,
leaves every other document in place, and returns the re-fetched
post-update record. -/
theorem update_changes_exactly_present_fields
    (tid : String) (tu : TenderUpdate) (now : DateTime)
    (store : List StoredTender) (d : StoredTender)
    (hfind : find_one store tid = some d)
    (hwf1 : ∃ x, date_fromisoformat d.start_date = some x)
    (hwf2 : ∃ x, date_fromisoformat d.expiry_date = some x)
    (hwf3 : ∃ x, fromisoformat d.due_date = some x)
    (hv1 : ∀ x, tu.start_date = some x → x.valid)
    (hv2 : ∀ x, tu.expiry_date = some x → x.valid)
    (hv3 : ∀ x, tu.due_date = some x → x.valid) :
    ∃ t, update_tender tid tu now store =
        (.ok t, (update_one store tid (buildUpdateDoc tu now)).1) ∧
      docToTender (applySet d (buildUpdateDoc tu now)) = some t ∧
      find_one (update_one store tid (buildUpdateDoc tu now)).1 tid =
        some (applySet d (buildUpdateDoc tu now)) ∧
      (applySet d (buildUpdateDoc tu now)).id = d.id ∧
      (applySet d (buildUpdateDoc tu now)).created_at = d.created_at ∧
      (applySet d (buildUpdateDoc tu now)).updated_at = now ∧
      (applySet d (buildUpdateDoc tu now)).item = tu.item.getD d.item ∧
      (applySet d (buildUpdateDoc tu now)).customer = tu.customer.getD d.customer ∧
      (applySet d (buildUpdateDoc tu now)).tender_name =
        tu.tender_name.getD d.tender_name ∧
      (applySet d (buildUpdateDoc tu now)).status = tu.status.getD d.status ∧
      (applySet d (buildUpdateDoc tu now)).start_date =
        (tu.start_date.map Date.isoformat).getD d.start_date ∧
      (applySet d (buildUpdateDoc tu now)).expiry_date =
        (tu.expiry_date.map Date.isoformat).getD d.expiry_date ∧
      (applySet d (buildUpdateDoc tu now)).due_date =
        (tu.due_date.map DateTime.isoformat).getD d.due_date ∧
      (applySet d (buildUpdateDoc tu now)).deal_value =
        tu.deal_value.getD d.deal_value ∧
      (applySet d (buildUpdateDoc tu now)).priority = tu.priority.getD d.priority ∧
      (applySet d (buildUpdateDoc tu now)).assigned_sales_rep =
        tu.assigned_sales_rep.getD d.assigned_sales_rep ∧
      ∀ e ∈ store, ¬(e.id = tid) →
        e ∈ (update_one store tid (buildUpdateDoc tu now)).1 := by
  obtain ⟨sx, hsx⟩ : ∃ x,
      date_fromisoformat (applySet d (buildUpdateDoc tu now)).start_date = some x := by
    rcases hts : tu.start_date with _ | x
    · obtain ⟨x0, hx0⟩ := hwf1
      exact ⟨x0, by simpa [applySet, buildUpdateDoc, hts] using hx0⟩
    · exact ⟨x, by simp [applySet, buildUpdateDoc, hts,
        date_fromisoformat_isoformat _ (hv1 x hts)]⟩
  obtain ⟨ex, hex⟩ : ∃ x,
      date_fromisoformat (applySet d (buildUpdateDoc tu now)).expiry_date = some x := by
    rcases hts : tu.expiry_date with _ | x
    · obtain ⟨x0, hx0⟩ := hwf2
      exact ⟨x0, by simpa [applySet, buildUpdateDoc, hts] using hx0⟩
    · exact ⟨x, by simp [applySet, buildUpdateDoc, hts,
        date_fromisoformat_isoformat _ (hv2 x hts)]⟩
  obtain ⟨dx, hdx⟩ : ∃ x,
      fromisoformat (applySet d (buildUpdateDoc tu now)).due_date = some x := by
    rcases hts : tu.due_date with _ | x
    · obtain ⟨x0, hx0⟩ := hwf3
      exact ⟨x0, by simpa [applySet, buildUpdateDoc, hts] using hx0⟩
    · exact ⟨x, by simp [applySet, buildUpdateDoc, hts,
        fromisoformat_isoformat _ (hv3 x hts)]⟩
  have hdoc : ∃ t, docToTender (applySet d (buildUpdateDoc tu now)) = some t := by
    unfold docToTender
    rw [hsx, hex, hdx]
    exact ⟨_, rfl⟩
  obtain ⟨t, ht⟩ := hdoc
  obtain ⟨hc1, hfind'⟩ := update_one_find (buildUpdateDoc tu now) hfind
  refine ⟨t, ?_, ht, hfind', rfl, rfl, rfl, rfl, rfl, rfl, rfl, rfl, rfl, rfl,
    rfl, rfl, rfl, ?_⟩
  · simp [update_tender, hc1, hfind', ht]
  · intro e he hne
    obtain ⟨hid, -, pre, post, hsplit, -, hupd⟩ :=
      update_one_split (buildUpdateDoc tu now) hfind
    rw [hupd]
    rw [hsplit] at he
    rcases List.mem_append.mp he with he | he
    · exact List.mem_append.mpr (Or.inl he)
    · rcases List.mem_cons.mp he with he | he
      · subst he
        exact absurd hid hne
      · exact List.mem_append.mpr (Or.inr (List.mem_cons_of_mem _ he))

theorem update_changes_exactly_present_fields_witness :
    ∃ t, update_tender "id-1" {priority := some PriorityLevel.LOW}
        ⟨2024, 2, 1, 0, 0, 0⟩ [acmeDoc] =
      (.ok t, (update_one [acmeDoc] "id-1"
        (buildUpdateDoc {priority := some PriorityLevel.LOW}
          ⟨2024, 2, 1, 0, 0, 0⟩)).1) := by
  obtain ⟨t, h1, -⟩ := update_changes_exactly_present_fields "id-1"
    {priority := some PriorityLevel.LOW} ⟨2024, 2, 1, 0, 0, 0⟩ [acmeDoc] acmeDoc rfl
    ⟨⟨2024, 1, 1⟩, rfl⟩ ⟨⟨2024, 6, 30⟩, rfl⟩ ⟨⟨2024, 1, 15, 10, 0, 0⟩, rfl⟩
    (fun x h => Option.noConfusion h) (fun x h => Option.noConfusion h)
    (fun x h => Option.noConfusion h)
  exact ⟨t, h1⟩

/-- C6 fails as stated: a filter parameter that is provided with the
empty-string value is not applied as an equality constraint.  With
`?customer=` (a provided filter value of `""`) the store's only record
is returned even though its customer is `"Acme" ≠ ""`. -/
theorem list_filter_empty_counterexample :
    get_tenders none none (some "") [acmeDoc] = .ok [acmeTender] ∧
    acmeTender.customer = "Acme" ∧ ¬(acmeTender.customer = "") :=
  ⟨rfl, rfl, by decide⟩

/-- C6 (amended): when no stored document matches the built query the
endpoint succeeds with the empty list — an empty result is an empty
sequence, not an error; and whenever the endpoint succeeds, every
returned record matches each provided *non-empty* filter value exactly,
as a conjunction, with at most 1000 records returned.  (A filter
provided as the empty string is ignored, see the counterexample and
C9.) -/
theorem list_filters_apply (status priority customer : Option String)
    (store : List StoredTender) :
    ((∀ d ∈ store, matchesQuery ⟨addIfTruthy status, addIfTruthy priority,
        addIfTruthy customer⟩ d = false) →
      get_tenders status priority customer store = .ok []) ∧
    ∀ ts, get_tenders status priority customer store = .ok ts →
      ts.length ≤ 1000 ∧
      ∀ t ∈ ts,
        (∀ s, status = some s → ¬(s = "") → t.status.toStr = s) ∧
        (∀ p, priority = some p → ¬(p = "") → t.priority.toStr = p) ∧
        (∀ c, customer = some c → ¬(c = "") → t.customer = c) := by
  constructor
  · intro hnone
    have hfil : store.filter (matchesQuery ⟨addIfTruthy status,
        addIfTruthy priority, addIfTruthy customer⟩) = [] := by
      rw [List.filter_eq_nil_iff]
      intro a ha
      simp [hnone a ha]
    simp only [get_tenders, find_to_list, hfil, List.take_nil, docsToTenders]
  · intro ts h
    simp only [get_tenders] at h
    split at h
    · cases h
    · rename_i ts0 hts0
      injection h with h
      subst h
      obtain ⟨hlen, hmem⟩ := docsToTenders_mem hts0
      refine ⟨?_, ?_⟩
      · rw [hlen]
        unfold find_to_list
        exact List.length_take_le _ _
      · intro t htmem
        obtain ⟨d, hdmem, hdt⟩ := hmem t htmem
        have hdq : matchesQuery ⟨addIfTruthy status, addIfTruthy priority,
            addIfTruthy customer⟩ d = true := by
          have hd2 := List.mem_of_mem_take hdmem
          exact (List.mem_filter.mp hd2).2
        obtain ⟨-, -, hcust, -, hstat, -, -, -, -, hprio, -, -, -⟩ :=
          docToTender_inv hdt
        refine ⟨?_, ?_, ?_⟩
        · intro s hs hne
          have hq : (⟨addIfTruthy status, addIfTruthy priority,
              addIfTruthy customer⟩ : TenderQuery).status = some s := by
            simp [addIfTruthy, hs, hne]
          rw [hstat]
          exact (matchesQuery_status hdq hq).symm
        · intro p hp hne
          have hq : (⟨addIfTruthy status, addIfTruthy priority,
              addIfTruthy customer⟩ : TenderQuery).priority = some p := by
            simp [addIfTruthy, hp, hne]
          rw [hprio]
          exact (matchesQuery_priority hdq hq).symm
        · intro c hc hne
          have hq : (⟨addIfTruthy status, addIfTruthy priority,
              addIfTruthy customer⟩ : TenderQuery).customer = some c := by
            simp [addIfTruthy, hc, hne]
          rw [hcust]
          exact (matchesQuery_customer hdq hq).symm

theorem list_filters_apply_witness :
    get_tenders (some "Globex") none none [acmeDoc] = .ok [] ∧
    [acmeTender].length ≤ 1000 ∧ acmeTender.customer = "Acme" := by
  refine ⟨(list_filters_apply (some "Globex") none none [acmeDoc]).1 (by decide),
    ?_, ?_⟩
  · exact ((list_filters_apply none none (some "Acme") [acmeDoc]).2
      [acmeTender] rfl).1
  · exact (((list_filters_apply none none (some "Acme") [acmeDoc]).2
      [acmeTender] rfl).2 acmeTender (List.mem_singleton_self _)).2.2 "Acme" rfl
      (by decide)
